import Mathlib

/-!
Verification of the `async-fetcher` crate's core against its specification.

The development shallowly embeds the relevant parts of the source:

* `src/checksum.rs` — the streaming checksum verifier (`Checksum::validate`
  and the generic `checksum` loop);
* `src/lib.rs` — the error type, the response probes (`head`,
  `supports_range`, `validate`), the single-stream getter `Fetcher::get`'s
  effect on the destination file, the probe phase and the request trace of
  `Fetcher::inner_request`, the retry loop of `Fetcher::request`, and
  `remove_parts`.

Machine integers (`u64`, status codes) are modelled as `Nat`; byte strings
as `List Nat`; `io::Error` payloads as an opaque `Nat` identifier; paths as
`String`.  Asynchronous effects are modelled by passing the outcome of each
awaited operation in explicitly (an environment of oracles), so every
definition is executable.
-/

namespace AsyncFetcher

/-- The `Error` enum of `src/lib.rs` (lines 51-81).  `io::Error` sources are
modelled as opaque `Nat` identifiers, `StatusCode` as the numeric code, and
`Arc<Path>` payloads as `String`. -/
inductive Error where
  | Cancelled : Error
  | Client (e : Nat) : Error
  | Concatenate (e : Nat) : Error
  | FileCreate (e : Nat) : Error
  | FileTime (p : String) (e : Nat) : Error
  | InvalidRange (e : Nat) : Error
  | MetadataRemove (e : Nat) : Error
  | Nameless : Error
  | OpenPart (p : String) (e : Nat) : Error
  | Parentless : Error
  | TimedOut : Error
  | Write (e : Nat) : Error
  | Rename (e : Nat) : Error
  | Status (code : Nat) : Error
deriving DecidableEq, Repr

/-! ## Checksum verifier (`src/checksum.rs`) -/

/-- Outcome of `Checksum::validate` / `checksum`: `Ok(())`,
`ChecksumError::Invalid(expected, actual)`, or `ChecksumError::IO(e)`
(`src/checksum.rs` lines 17-23). -/
inductive ChecksumResult where
  | ok : ChecksumResult
  | invalid (expected actual : List Nat) : ChecksumResult
  | ioError (e : Nat) : ChecksumResult
deriving DecidableEq, Repr

/-- The end-of-stream branch of `checksum` (`src/checksum.rs` lines 84-93):
finalize the hasher over the bytes fed so far and compare with the expected
digest.  A `Digest` implementation is modelled extensionally as a function
`hash` from the full byte sequence fed by `update` calls to the finalized
digest. -/
def finishDigest (hash : List Nat → List Nat) (expected acc : List Nat) :
    ChecksumResult :=
  if hash acc = expected then ChecksumResult.ok
  else ChecksumResult.invalid expected (hash acc)

/-- The read loop of `checksum` (`src/checksum.rs` lines 81-96) over a
script of read outcomes: each entry is the result of one `reader.read`
call (`Except.error e` for an I/O error, `Except.ok chunk` for a successful
read of `chunk`, the empty chunk meaning end of stream).  Running past the
end of the script is end of stream.  `acc` is the byte sequence fed to the
hasher so far. -/
def checksumScript (hash : List Nat → List Nat) (expected acc : List Nat) :
    List (Except Nat (List Nat)) → ChecksumResult
  | [] => finishDigest hash expected acc
  | Except.error e :: _ => ChecksumResult.ioError e
  | Except.ok [] :: _ => finishDigest hash expected acc
  | Except.ok (b :: bs) :: rest =>
      checksumScript hash expected (acc ++ (b :: bs)) rest

/-- The full byte stream delivered by a read script: the concatenation of
the chunks before the first empty read (or the script's end), or the first
I/O error if one occurs before end of stream. -/
def scriptBytes : List (Except Nat (List Nat)) → Except Nat (List Nat)
  | [] => Except.ok []
  | Except.error e :: _ => Except.error e
  | Except.ok [] :: _ => Except.ok []
  | Except.ok (b :: bs) :: rest =>
      (scriptBytes rest).map (fun t => (b :: bs) ++ t)

/-- The `Checksum` enum (`src/checksum.rs` lines 11-15): an expected MD5 or
SHA-256 digest, the digest bytes modelled as `List Nat`. -/
inductive Checksum where
  | md5 (sum : List Nat) : Checksum
  | sha256 (sum : List Nat) : Checksum
deriving DecidableEq, Repr

/-- The two digest algorithms, modelled extensionally: the map from a full
byte sequence to its digest. -/
structure DigestImpl where
  md5 : List Nat → List Nat
  sha256 : List Nat → List Nat

/-- The expected digest bytes carried by a `Checksum`. -/
def Checksum.expectedSum : Checksum → List Nat
  | Checksum.md5 s => s
  | Checksum.sha256 s => s

/-- The digest function a `Checksum` value selects
(`src/checksum.rs` lines 66-69). -/
def Checksum.hashFn (d : DigestImpl) : Checksum → (List Nat → List Nat)
  | Checksum.md5 _ => d.md5
  | Checksum.sha256 _ => d.sha256

/-- `Checksum::validate` (`src/checksum.rs` lines 60-71): dispatch on the
tag and run the generic `checksum` loop with the corresponding digest. -/
def Checksum.validateScript (d : DigestImpl) (c : Checksum)
    (script : List (Except Nat (List Nat))) : ChecksumResult :=
  checksumScript (c.hashFn d) c.expectedSum [] script

/-- The read loop of `checksum` for a concrete in-memory byte source read
through a buffer of size `bufsize`: each `read` returns
`min bufsize |remaining|` bytes (the semantics of `Read` for slices and
files).  Returns the result together with the bytes of the source left
unconsumed. -/
def checksumSlice (hash : List Nat → List Nat) (expected : List Nat)
    (bufsize : Nat) (acc src : List Nat) : ChecksumResult × List Nat :=
  if hread : (src.take bufsize).length = 0 then
    (finishDigest hash expected acc, src)
  else checksumSlice hash expected bufsize (acc ++ src.take bufsize)
    (src.drop bufsize)
termination_by src.length
decreasing_by
  simp only [List.length_take, List.length_drop] at *
  omega

theorem checksumScript_spec (hash : List Nat → List Nat)
    (expected : List Nat) (s : List (Except Nat (List Nat))) :
    ∀ acc : List Nat,
      (∀ bs, scriptBytes s = Except.ok bs →
        checksumScript hash expected acc s = finishDigest hash expected (acc ++ bs)) ∧
      (∀ e, scriptBytes s = Except.error e →
        checksumScript hash expected acc s = ChecksumResult.ioError e) := by
  induction s with
  | nil =>
      intro acc
      refine ⟨fun bs hbs => ?_, fun e he => ?_⟩
      · simp only [scriptBytes, Except.ok.injEq] at hbs
        simp [checksumScript, ← hbs]
      · simp [scriptBytes] at he
  | cons hd tl ih =>
      intro acc
      match hd with
      | Except.error e =>
          refine ⟨fun bs hbs => ?_, fun e' he => ?_⟩
          · simp [scriptBytes] at hbs
          · simp only [scriptBytes, Except.error.injEq] at he
            simp [checksumScript, he]
      | Except.ok [] =>
          refine ⟨fun bs hbs => ?_, fun e' he => ?_⟩
          · simp only [scriptBytes, Except.ok.injEq] at hbs
            simp [checksumScript, ← hbs]
          · simp [scriptBytes] at he
      | Except.ok (b :: bs') =>
          refine ⟨fun bs hbs => ?_, fun e' he => ?_⟩
          · simp only [scriptBytes] at hbs
            cases htl : scriptBytes tl with
            | ok t =>
                rw [htl] at hbs
                simp only [Except.map, Except.ok.injEq] at hbs
                have := ((ih (acc ++ (b :: bs'))).1) t htl
                simp only [checksumScript, this, ← hbs, List.append_assoc]
            | error e =>
                rw [htl] at hbs
                simp [Except.map] at hbs
          · simp only [scriptBytes] at he
            cases htl : scriptBytes tl with
            | ok t =>
                rw [htl] at he
                simp [Except.map] at he
            | error e =>
                rw [htl] at he
                simp only [Except.map, Except.error.injEq] at he
                subst he
                have := ((ih (acc ++ (b :: bs'))).2) e htl
                simpa [checksumScript] using this

/-- C8: `Checksum::validate` over any byte source (read script) and digest
implementation: when the stream is delivered without I/O error, the result
is `Ok(())` exactly when the digest of the full stream equals the expected
digest, and on a mismatch the result is `Invalid(expected, actual)` with
`actual` the computed digest; when a read fails before end of stream the
result is `IO` with that error. -/
theorem checksum_validate_spec (d : DigestImpl) (c : Checksum)
    (s : List (Except Nat (List Nat))) :
    (∀ bs, scriptBytes s = Except.ok bs →
      ((Checksum.validateScript d c s = ChecksumResult.ok ↔
          c.hashFn d bs = c.expectedSum) ∧
        (c.hashFn d bs ≠ c.expectedSum →
          Checksum.validateScript d c s =
            ChecksumResult.invalid c.expectedSum (c.hashFn d bs)))) ∧
    (∀ e, scriptBytes s = Except.error e →
      Checksum.validateScript d c s = ChecksumResult.ioError e) := by
  constructor
  · intro bs hbs
    have h := (checksumScript_spec (c.hashFn d) c.expectedSum s []).1 bs hbs
    rw [Checksum.validateScript, h, List.nil_append]
    constructor
    · constructor
      · intro hok
        by_contra hne
        simp [finishDigest, hne] at hok
      · intro heq
        simp [finishDigest, heq]
    · intro hne
      simp [finishDigest, hne]
  · intro e he
    have h := (checksumScript_spec (c.hashFn d) c.expectedSum s []).2 e he
    rw [Checksum.validateScript, h]

/-- Witness for C8: a concrete script delivering `[1, 2]` then end of
stream, with an identity "digest", validates successfully; and a failing
read surfaces as an I/O error. -/
theorem checksum_validate_spec_witness :
    Checksum.validateScript ⟨fun l => l, fun l => l⟩ (Checksum.md5 [1, 2])
        [Except.ok [1, 2], Except.ok []] = ChecksumResult.ok ∧
      Checksum.validateScript ⟨fun l => l, fun l => l⟩ (Checksum.md5 [1, 2])
        [Except.error 7] = ChecksumResult.ioError 7 := by
  constructor
  · exact ((checksum_validate_spec ⟨fun l => l, fun l => l⟩
      (Checksum.md5 [1, 2]) [Except.ok [1, 2], Except.ok []]).1 [1, 2]
      rfl).1.mpr rfl
  · exact (checksum_validate_spec ⟨fun l => l, fun l => l⟩
      (Checksum.md5 [1, 2]) [Except.error 7]).2 7 rfl

/-- C10: reading with a zero-length buffer makes the very first read return
zero bytes, so `checksum` consumes nothing from the source and compares the
expected digest against the digest of the empty byte sequence, whatever the
source holds. -/
theorem checksum_empty_buffer (hash : List Nat → List Nat)
    (expected : List Nat) (src : List Nat) :
    (checksumSlice hash expected 0 [] src).2 = src ∧
      ((checksumSlice hash expected 0 [] src).1 = ChecksumResult.ok ↔
        hash [] = expected) := by
  have hstep : checksumSlice hash expected 0 [] src =
      (finishDigest hash expected [], src) := by
    rw [checksumSlice]
    simp
  rw [hstep]
  refine ⟨rfl, ?_⟩
  constructor
  · intro hok
    by_contra hne
    simp [finishDigest, hne] at hok
  · intro heq
    simp [finishDigest, heq]

/-- Witness for C10: with source `[5, 6]` and a digest that maps the empty
sequence to `[9]`, expecting `[9]` succeeds without consuming the source. -/
theorem checksum_empty_buffer_witness :
    (checksumSlice (fun _ => [9]) [9] 0 [] [5, 6]).2 = [5, 6] ∧
      (checksumSlice (fun _ => [9]) [9] 0 [] [5, 6]).1 = ChecksumResult.ok := by
  refine ⟨(checksum_empty_buffer (fun _ => [9]) [9] [5, 6]).1, ?_⟩
  exact (checksum_empty_buffer (fun _ => [9]) [9] [5, 6]).2.mpr rfl

/-! ## Response probes (`src/lib.rs` lines 612-679) -/

/-- `StatusCode::is_informational`: the 1xx range. -/
def isInformational (s : Nat) : Bool := 100 ≤ s && s ≤ 199

/-- `StatusCode::is_success`: the 2xx range. -/
def isSuccess (s : Nat) : Bool := 200 ≤ s && s ≤ 299

/-- `validate` (`src/lib.rs` lines 671-679): pass informational and success
statuses through, turn anything else into `Error::Status`.  The response is
modelled by its status code. -/
def validateStatus (s : Nat) : Except Error Nat :=
  if isInformational s || isSuccess s then Except.ok s
  else Except.error (Error.Status s)

/-- `head` (`src/lib.rs` lines 612-621).  The transport outcome is passed
in: `Except.error e` when `client.send_async` fails (propagated by `?`),
`Except.ok status` for a received response, modelled by its status code.
`Err(Status(304))` and `Err(Status(501))` from `validate` are remapped to
`Ok(None)`; other validation failures propagate. -/
def headModel (resp : Except Error Nat) : Except Error (Option Nat) :=
  match resp with
  | Except.error e => Except.error e
  | Except.ok status =>
    match validateStatus status with
    | Except.ok s => Except.ok (some s)
    | Except.error e =>
        if e = Error.Status 304 ∨ e = Error.Status 501 then Except.ok none
        else Except.error e

/-- The string `format!("bytes {}-", resume)` from
`src/lib.rs` line 639. -/
def rangePrefix (resume : Nat) : String := "bytes " ++ toString resume ++ "-"

/-- `supports_range` (`src/lib.rs` lines 623-649).  The transport outcome
is passed in: a received response is modelled by its status code and its
`Content-Range` header (`none` when the header is absent or not valid
ASCII).  On `206`, return whether the header starts with
`bytes <resume>-` (`starts_with` is modelled as prefix of the character
sequence, which agrees with the byte prefix on UTF-8); otherwise defer to
`validate` and map success to `false`. -/
def supportsRangeModel (resp : Except Error (Nat × Option String))
    (resume : Nat) : Except Error Bool :=
  match resp with
  | Except.error e => Except.error e
  | Except.ok (status, contentRange) =>
    if status = 206 then
      match contentRange with
      | some hdr =>
          if (rangePrefix resume).data.isPrefixOf hdr.data then Except.ok true
          else Except.ok false
      | none => Except.ok false
    else (validateStatus status).map (fun _ => false)

/-- C7: `head` returns `Ok(None)` exactly on status 304 or 501, returns
`Ok(Some(response))` on informational or success statuses, and returns
`Err(Status(code))` on every other status. -/
theorem head_model_spec (s : Nat) :
    (headModel (Except.ok s) = Except.ok none ↔ s = 304 ∨ s = 501) ∧
    ((isInformational s || isSuccess s) = true →
      headModel (Except.ok s) = Except.ok (some s)) ∧
    ((isInformational s || isSuccess s) = false → s ≠ 304 → s ≠ 501 →
      headModel (Except.ok s) = Except.error (Error.Status s)) := by
  by_cases h : (isInformational s || isSuccess s) = true
  · have h304 : s ≠ 304 := by
      intro hs
      subst hs
      simp [isInformational, isSuccess] at h
    have h501 : s ≠ 501 := by
      intro hs
      subst hs
      simp [isInformational, isSuccess] at h
    have hm : headModel (Except.ok s) = Except.ok (some s) := by
      simp [headModel, validateStatus, h]
    refine ⟨?_, fun _ => hm, fun hf => absurd h (by simp [hf])⟩
    rw [hm]
    constructor
    · intro hq
      simp at hq
    · rintro (hs | hs) <;> [exact absurd hs h304; exact absurd hs h501]
  · have hv : validateStatus s = Except.error (Error.Status s) := by
      simp only [validateStatus, if_neg h]
    by_cases h304 : s = 304
    · subst h304
      have hm : headModel (Except.ok 304) = Except.ok none := by
        simp [headModel, hv]
      exact ⟨by rw [hm]; simp, fun ht => absurd ht h, fun _ hne => absurd rfl hne⟩
    · by_cases h501 : s = 501
      · subst h501
        have hm : headModel (Except.ok 501) = Except.ok none := by
          simp [headModel, hv]
        exact ⟨by rw [hm]; simp, fun ht => absurd ht h,
          fun _ _ hne => absurd rfl hne⟩
      · have hm : headModel (Except.ok s) = Except.error (Error.Status s) := by
          simp [headModel, hv, h304, h501]
        refine ⟨?_, fun ht => absurd ht h, fun _ _ _ => hm⟩
        rw [hm]
        constructor
        · intro hq
          simp at hq
        · rintro (hs | hs) <;> [exact absurd hs h304; exact absurd hs h501]

/-- Witness for C7: status 200 yields `Ok(Some(200))`, status 304 yields
`Ok(None)`, and status 404 yields `Err(Status(404))`. -/
theorem head_model_spec_witness :
    headModel (Except.ok 200) = Except.ok (some 200) ∧
      headModel (Except.ok 304) = Except.ok none ∧
      headModel (Except.ok 404) = Except.error (Error.Status 404) := by
  refine ⟨(head_model_spec 200).2.1 (by decide), ?_, ?_⟩
  · exact (head_model_spec 304).1.mpr (Or.inl rfl)
  · exact (head_model_spec 404).2.2 (by decide) (by decide) (by decide)

/-- C6: `supports_range` returns `Ok(true)` iff the response has status 206
and a `Content-Range` header beginning with `bytes <resume>-`; on a non-206
informational or success status it returns `Ok(false)`; on any other
status it returns `Err(Status(code))`; a 206 response never yields an
error; transport failures propagate. -/
theorem supports_range_spec (resp : Except Error (Nat × Option String))
    (resume : Nat) :
    (supportsRangeModel resp resume = Except.ok true ↔
      ∃ hdr, resp = Except.ok (206, some hdr) ∧
        (rangePrefix resume).data.isPrefixOf hdr.data = true) ∧
    (∀ s cr, resp = Except.ok (s, cr) → s ≠ 206 →
      (isInformational s || isSuccess s) = true →
      supportsRangeModel resp resume = Except.ok false) ∧
    (∀ s cr, resp = Except.ok (s, cr) → s ≠ 206 →
      (isInformational s || isSuccess s) = false →
      supportsRangeModel resp resume = Except.error (Error.Status s)) ∧
    (∀ cr, resp = Except.ok (206, cr) →
      ∃ b, supportsRangeModel resp resume = Except.ok b) ∧
    (∀ e, resp = Except.error e →
      supportsRangeModel resp resume = Except.error e) := by
  refine ⟨?_, ?_, ?_, ?_, ?_⟩
  · constructor
    · intro htrue
      match resp with
      | Except.error e => simp [supportsRangeModel] at htrue
      | Except.ok (s, cr) =>
          by_cases h206 : s = 206
          · subst h206
            match cr with
            | none => simp [supportsRangeModel] at htrue
            | some hdr =>
                refine ⟨hdr, rfl, ?_⟩
                by_contra hpre
                simp [supportsRangeModel, hpre] at htrue
          · simp only [supportsRangeModel, if_neg h206] at htrue
            unfold validateStatus at htrue
            by_cases hval : (isInformational s || isSuccess s) = true
            · simp [hval, Except.map] at htrue
            · simp [hval, Except.map] at htrue
    · rintro ⟨hdr, hresp, hpre⟩
      subst hresp
      simp [supportsRangeModel, hpre]
  · rintro s cr rfl h206 hval
    simp [supportsRangeModel, h206, validateStatus, hval, Except.map]
  · rintro s cr rfl h206 hval
    simp [supportsRangeModel, h206, validateStatus, hval, Except.map]
  · rintro cr rfl
    match cr with
    | none => exact ⟨false, by simp [supportsRangeModel]⟩
    | some hdr =>
        by_cases hpre : (rangePrefix resume).data.isPrefixOf hdr.data = true
        · exact ⟨true, by simp [supportsRangeModel, hpre]⟩
        · exact ⟨false, by simp [supportsRangeModel, hpre]⟩
  · rintro e rfl
    simp [supportsRangeModel]

/-- Witness for C6: a 206 response whose `Content-Range` is
`bytes 2-4/10` supports resuming at 2; a 200 response does not; a 500
response is an error. -/
theorem supports_range_spec_witness :
    supportsRangeModel (Except.ok (206, some "bytes 2-4/10")) 2 =
        Except.ok true ∧
      supportsRangeModel (Except.ok (200, none)) 2 = Except.ok false ∧
      supportsRangeModel (Except.ok (500, none)) 2 =
        Except.error (Error.Status 500) := by
  refine ⟨?_, ?_, ?_⟩
  · exact (supports_range_spec (Except.ok (206, some "bytes 2-4/10")) 2).1.mpr
      ⟨"bytes 2-4/10", rfl, by decide⟩
  · exact (supports_range_spec (Except.ok (200, none)) 2).2.1 200 none rfl
      (by decide) (by decide)
  · exact (supports_range_spec (Except.ok (500, none)) 2).2.2.1 500 none rfl
      (by decide) (by decide)

/-! ## Probe phase of `Fetcher::inner_request` (`src/lib.rs` lines 281-321) -/

/-- The headers `inner_request` reads off a HEAD response
(`src/lib.rs` lines 288-289, 686-698): the parsed `Content-Length` and the
parsed `Last-Modified` already converted to whole seconds since the epoch
(`date_as_timestamp`). -/
structure HeadInfo where
  contentLength : Option Nat
  lastModified : Option Nat
deriving DecidableEq, Repr

/-- The local file metadata `inner_request` consults
(`src/lib.rs` lines 292-297): the length, and the outcome of
`metadata.modified()` in whole seconds since the epoch (reading the mtime
itself can fail, surfacing as `Error::Write`). -/
structure FileMeta where
  len : Nat
  mtime : Except Nat Nat
deriving Repr

/-- The state `inner_request`'s probe phase leaves behind: whether the
attempt finished early (cache hit), whether `AlreadyFetched` was emitted,
whether the local file was deleted, and the `resume` / `length` /
`modified` variables as of line 322. -/
structure ProbeResult where
  finished : Bool
  alreadyFetched : Bool
  deletedLocal : Bool
  resume : Option Nat
  length : Option Nat
  modified : Option Nat
deriving DecidableEq, Repr

/-- Probe state when the destination does not exist or the HEAD gave no
information: nothing known, proceed. -/
def emptyProbe : ProbeResult :=
  ⟨false, false, false, none, none, none⟩

/-- The probe phase of `inner_request` (`src/lib.rs` lines 281-321).
`headResp` is the outcome of `head(&client, &uris[0])`, `meta` the outcome
of `fs::metadata(to)`, and `removeOk` the outcome of `fs::remove_file(to)`
where the code deletes the local file. -/
def probeModel (fileExists : Bool) (headResp : Except Error (Option HeadInfo))
    (meta : Except Nat FileMeta) (removeOk : Except Nat Unit) :
    Except Error ProbeResult :=
  if fileExists then
    match headResp with
    | Except.error e => Except.error e
    | Except.ok none => Except.ok emptyProbe
    | Except.ok (some info) =>
      match info.contentLength, info.lastModified with
      | some l, some m =>
        match meta with
        | Except.ok md =>
          match md.mtime with
          | Except.error e => Except.error (Error.Write e)
          | Except.ok mtime =>
            if md.len = l then
              if mtime = m then
                Except.ok ⟨true, true, false, none, some l, some m⟩
              else
                match removeOk with
                | Except.ok _ =>
                    Except.ok ⟨false, false, true, none, some l, some m⟩
                | Except.error e => Except.error (Error.MetadataRemove e)
            else Except.ok ⟨false, false, false, some md.len, some l, some m⟩
        | Except.error _ =>
          match removeOk with
          | Except.ok _ => Except.ok ⟨false, false, true, none, some l, some m⟩
          | Except.error e => Except.error (Error.MetadataRemove e)
      | cl, lm => Except.ok ⟨false, false, false, none, cl, lm⟩
  else Except.ok emptyProbe

/-- C5: when the destination exists and the HEAD probe yields both headers
and the local metadata is readable: equal length and equal whole-second
mtime finish the attempt with `AlreadyFetched`; equal length but different
mtime deletes the local file and proceeds; different length sets `resume`
to the local length and proceeds. -/
theorem probe_phase_spec (l m len mtime : Nat) :
    (len = l → mtime = m →
      probeModel true (Except.ok (some ⟨some l, some m⟩))
          (Except.ok ⟨len, Except.ok mtime⟩) (Except.ok ()) =
        Except.ok ⟨true, true, false, none, some l, some m⟩) ∧
    (len = l → mtime ≠ m →
      probeModel true (Except.ok (some ⟨some l, some m⟩))
          (Except.ok ⟨len, Except.ok mtime⟩) (Except.ok ()) =
        Except.ok ⟨false, false, true, none, some l, some m⟩) ∧
    (len ≠ l →
      probeModel true (Except.ok (some ⟨some l, some m⟩))
          (Except.ok ⟨len, Except.ok mtime⟩) (Except.ok ()) =
        Except.ok ⟨false, false, false, some len, some l, some m⟩) := by
  refine ⟨fun h1 h2 => ?_, fun h1 h2 => ?_, fun h1 => ?_⟩
  · simp [probeModel, h1, h2]
  · simp [probeModel, h1, h2]
  · simp [probeModel, h1]

/-- Witness for C5: with remote length 5 / timestamp 1000, a local file of
length 5 and mtime 1000 is a cache hit; mtime 999 gets deleted; length 2
sets `resume = 2`. -/
theorem probe_phase_spec_witness :
    probeModel true (Except.ok (some ⟨some 5, some 1000⟩))
        (Except.ok ⟨5, Except.ok 1000⟩) (Except.ok ()) =
      Except.ok ⟨true, true, false, none, some 5, some 1000⟩ ∧
    probeModel true (Except.ok (some ⟨some 5, some 1000⟩))
        (Except.ok ⟨5, Except.ok 999⟩) (Except.ok ()) =
      Except.ok ⟨false, false, true, none, some 5, some 1000⟩ ∧
    probeModel true (Except.ok (some ⟨some 5, some 1000⟩))
        (Except.ok ⟨2, Except.ok 999⟩) (Except.ok ()) =
      Except.ok ⟨false, false, false, some 2, some 5, some 1000⟩ := by
  refine ⟨?_, ?_, ?_⟩
  · exact (probe_phase_spec 5 1000 5 1000).1 rfl rfl
  · exact (probe_phase_spec 5 1000 5 999).2.1 rfl (by decide)
  · exact (probe_phase_spec 5 1000 2 999).2.2 (by decide)

/-! ## Single-stream getter `Fetcher::get` (`src/lib.rs` lines 424-507)

The effect of one `get` call on the destination file's bytes.  The model
covers a call that receives a response (status and fully delivered body)
and whose file-system operations succeed; the cancellation flag is
modelled as constant over the call (the loop checks it before the first
read, so a set flag fails with `Cancelled`).  Events and the per-chunk
timeout (which only turns slow reads into `TimedOut`) are not modelled. -/

/-- The `OpenOptions` of `get` (`src/lib.rs` lines 435-442):
`create(true).write(true).append(offset != 0).truncate(offset == 0)`.
With `offset == 0` the file's bytes are discarded; otherwise they are
kept and subsequent writes append at end of file. -/
def openDest (content : List Nat) (offset : Nat) : List Nat :=
  if offset = 0 then [] else content

/-- `file.set_len(length)` (`src/lib.rs` lines 444-446): extend with zero
bytes or truncate to exactly `length`, when a length is known. -/
def setLenTo (content : List Nat) : Option Nat → List Nat
  | none => content
  | some l =>
      if content.length ≤ l then
        content ++ List.replicate (l - content.length) 0
      else content.take l

/-- `Fetcher::get` (`src/lib.rs` lines 424-507) as a function on the
destination's bytes: open (truncate or append), pre-size to `length`,
return at once on a 304, `validate` the status, then stream the body —
appended at end of file when `offset != 0`, written from position 0
otherwise.  Returns the final bytes of the destination on `Ok` (the Rust
code returns the path `to`). -/
def getModel (content : List Nat) (offset : Nat) (length : Option Nat)
    (status : Nat) (body : List Nat) (cancelFlag : Bool) :
    Except Error (List Nat) :=
  let afterOpen := setLenTo (openDest content offset) length
  if status = 304 then Except.ok afterOpen
  else if isInformational status || isSuccess status then
    if cancelFlag then Except.error Error.Cancelled
    else
      Except.ok (if offset = 0 then body ++ afterOpen.drop body.length
                 else afterOpen ++ body)
  else Except.error (Error.Status status)

/-- C1 failing input: resuming at offset 2 with known total length 5, the
open happens in append mode and `set_len(5)` then extends the 2-byte file
to 5 bytes of which 3 are zeros, so the 3-byte body (`"llo"`) is appended
at offset 5: the destination ends with 8 bytes `"he\x00\x00\x00llo"`, not
the 5 bytes `"hello"` the claim requires. -/
theorem get_resume_overshoots :
    getModel [104, 101] 2 (some 5) 206 [108, 108, 111] false =
        Except.ok [104, 101, 0, 0, 0, 108, 108, 111] ∧
      ([104, 101, 0, 0, 0, 108, 108, 111] : List Nat) ≠
        [104, 101, 108, 108, 111] ∧
      ([104, 101, 0, 0, 0, 108, 108, 111] : List Nat).length ≠ 5 := by
  refine ⟨rfl, by decide, by decide⟩

/-- Counterexample to C3 as stated: a 304 response does not leave the
destination unchanged — with `offset = 0` the open already truncated it.
A 5-byte destination is empty after a 304 `get` call. -/
theorem get_304_truncates :
    getModel [104, 101, 108, 108, 111] 0 none 304 [] false =
        Except.ok [] ∧
      ([] : List Nat) ≠ [104, 101, 108, 108, 111] :=
  ⟨rfl, by decide⟩

/-- C3 amended: on a 304 response `get` returns `to` immediately and
writes no body bytes — the outcome is independent of the response body and
of the cancellation flag — but the open-time truncation (`offset = 0`) and
the pre-sizing to `length` have already happened, so the contents are
exactly unchanged only when `offset ≠ 0` and no length is known. -/
theorem get_304_no_body_writes (content : List Nat) (offset : Nat)
    (length : Option Nat) (body body' : List Nat) (c c' : Bool) :
    (getModel content offset length 304 body c =
        getModel content offset length 304 body' c') ∧
    (offset ≠ 0 → length = none →
      getModel content offset length 304 body c = Except.ok content) := by
  constructor
  · simp [getModel]
  · intro ho hl
    subst hl
    simp [getModel, setLenTo, openDest, ho]

/-- Witness for C3 (amended): a 304 on a file opened at offset 3 with no
known length returns the file unchanged, whatever body the response
carried and with the cancellation flag set. -/
theorem get_304_no_body_writes_witness :
    getModel [1, 2] 3 none 304 [9, 9] true = Except.ok [1, 2] :=
  (get_304_no_body_writes [1, 2] 3 none [9, 9] [] true false).2
    (by decide) rfl

/-! ## Retry loop of `Fetcher::request` (`src/lib.rs` lines 240-273) and
`remove_parts` (`src/lib.rs` lines 708-727) -/

/-- An observable step of `Fetcher::request`: a `remove_parts(&to)` call or
the `i`-th `inner_request` attempt (0-based). -/
inductive ReqAction where
  | removeParts : ReqAction
  | attempt (i : Nat) : ReqAction
deriving DecidableEq, Repr

/-- The `for _ in 1..retries` loop of `request`
(`src/lib.rs` lines 255-264): run attempts `i, i+1, ...` while `remaining`
iterations are left, keeping the latest error `why`.  Returns the result,
the attempts performed, and whether the loop exited through the
`return Ok(())` on line 261 (which leaves `request` without reaching the
final `remove_parts`). -/
def retryLoop (results : Nat → Except Error Unit) :
    Nat → Nat → Error → Except Error Unit × List ReqAction × Bool
  | _, 0, why => (Except.error why, [], false)
  | i, r + 1, _ =>
    match results i with
    | Except.ok _ => (Except.ok (), [ReqAction.attempt i], true)
    | Except.error c =>
        let next := retryLoop results (i + 1) r c
        (next.1, ReqAction.attempt i :: next.2.1, next.2.2)

/-- `Fetcher::request` (`src/lib.rs` lines 240-273): `remove_parts`, the
first attempt, then up to `retries - 1` further attempts on failure, then
`remove_parts` — except that a retry that succeeds returns early.
`results i` is the outcome of the `i`-th `inner_request` call.  Returns
the caller-visible result and the sequence of observable steps. -/
def requestTrace (retries : Nat) (results : Nat → Except Error Unit) :
    Except Error Unit × List ReqAction :=
  match results 0 with
  | Except.ok _ =>
      (Except.ok (),
        [ReqAction.removeParts, ReqAction.attempt 0, ReqAction.removeParts])
  | Except.error why =>
      let rest := retryLoop results 1 (retries - 1) why
      (rest.1,
        ReqAction.removeParts :: ReqAction.attempt 0 ::
          (rest.2.1 ++ if rest.2.2 then [] else [ReqAction.removeParts]))

/-- The number of `inner_request` attempts in a step sequence. -/
def countAttempts : List ReqAction → Nat
  | [] => 0
  | ReqAction.attempt _ :: rest => countAttempts rest + 1
  | ReqAction.removeParts :: rest => countAttempts rest

/-- The test of `remove_parts` (`src/lib.rs` lines 717-723): a directory
entry is deleted when stripping the destination's filename from it leaves
a remainder starting with `.part` (prefixes taken over the character
sequence). -/
def isPartSibling (filename entry : String) : Bool :=
  filename.data.isPrefixOf entry.data &&
    ".part".data.isPrefixOf (entry.data.drop filename.data.length)

/-- `remove_parts` (`src/lib.rs` lines 708-727) on a directory listing:
delete every entry matching `<filename>.part*` (all deletions succeed in
the model; the code ignores deletion errors). -/
def removePartsModel (filename : String) (dir : List String) : List String :=
  dir.filter (fun e => !isPartSibling filename e)

theorem retryLoop_all_cancelled (results : Nat → Except Error Unit)
    (hc : ∀ i, results i = Except.error Error.Cancelled) :
    ∀ r i, retryLoop results i r Error.Cancelled =
      (Except.error Error.Cancelled,
        (List.range' i r).map ReqAction.attempt, false) := by
  intro r
  induction r with
  | zero => intro i; rfl
  | succ nn ih =>
      intro i
      rw [List.range'_succ]
      simp only [retryLoop, hc i, ih (i + 1), List.map_cons]

theorem countAttempts_append (xs ys : List ReqAction) :
    countAttempts (xs ++ ys) = countAttempts xs + countAttempts ys := by
  induction xs with
  | nil => simp [countAttempts]
  | cons hd tl ih =>
      cases hd with
      | removeParts => simpa [countAttempts] using ih
      | attempt i => simp [countAttempts, ih]; omega

theorem countAttempts_map_range (i r : Nat) :
    countAttempts ((List.range' i r).map ReqAction.attempt) = r := by
  induction r generalizing i with
  | zero => rfl
  | succ nn ih =>
      rw [List.range'_succ, List.map_cons]
      simp [countAttempts, ih (i + 1)]

/-- Counterexample to C2 as stated: with `retries = 3` and every attempt
failing with `Cancelled`, `request` performs 3 attempts — a `Cancelled`
attempt does not suppress the remaining retries. -/
theorem cancelled_attempt_is_retried :
    requestTrace 3 (fun _ => Except.error Error.Cancelled) =
        (Except.error Error.Cancelled,
          [ReqAction.removeParts, ReqAction.attempt 0, ReqAction.attempt 1,
            ReqAction.attempt 2, ReqAction.removeParts]) ∧
      countAttempts
          (requestTrace 3 (fun _ => Except.error Error.Cancelled)).2 = 3 ∧
      (3 : Nat) ≠ 1 :=
  ⟨rfl, rfl, by decide⟩

/-- C2 amended: an attempt failing with `Cancelled` is retried like any
other failure; when the cancellation flag stays set so that every attempt
fails with `Cancelled`, `request` performs all `retries` attempts and the
caller receives `Cancelled`. -/
theorem cancelled_retry_exhausts (retries : Nat)
    (results : Nat → Except Error Unit) (hr : 0 < retries)
    (hc : ∀ i, results i = Except.error Error.Cancelled) :
    (requestTrace retries results).1 = Except.error Error.Cancelled ∧
      countAttempts (requestTrace retries results).2 = retries := by
  have hloop := retryLoop_all_cancelled results hc (retries - 1) 1
  constructor
  · simp only [requestTrace, hc 0, hloop]
  · simp only [requestTrace, hc 0, hloop, countAttempts, countAttempts_append,
      countAttempts_map_range]
    simp [countAttempts]
    omega

/-- Witness for C2 (amended): with `retries = 3` and the flag set
throughout, the result is `Cancelled` after exactly 3 attempts. -/
theorem cancelled_retry_exhausts_witness :
    (requestTrace 3 (fun _ => Except.error Error.Cancelled)).1 =
        Except.error Error.Cancelled ∧
      countAttempts
        (requestTrace 3 (fun _ => Except.error Error.Cancelled)).2 = 3 :=
  cancelled_retry_exhausts 3 (fun _ => Except.error Error.Cancelled)
    (by decide) (fun _ => rfl)

/-- Counterexample to C4 as stated: with `retries = 3`, a first attempt
failing with `TimedOut` and a second attempt succeeding, the observable
steps are `remove_parts`, attempt 0, attempt 1 — no `remove_parts` runs
before attempt 1 (the claim requires one before each attempt) and none
runs after the final outcome (the success on line 261 returns early). -/
theorem remove_parts_skipped :
    requestTrace 3
        (fun i => if i = 0 then Except.error Error.TimedOut
                  else Except.ok ()) =
      (Except.ok (),
        [ReqAction.removeParts, ReqAction.attempt 0, ReqAction.attempt 1]) ∧
      (requestTrace 3
          (fun i => if i = 0 then Except.error Error.TimedOut
                    else Except.ok ())).2.getLast? ≠
        some ReqAction.removeParts :=
  ⟨rfl, by decide⟩

theorem retryLoop_error_not_early (results : Nat → Except Error Unit) :
    ∀ r i why e, (retryLoop results i r why).1 = Except.error e →
      (retryLoop results i r why).2.2 = false := by
  intro r
  induction r with
  | zero => intro i why e _; rfl
  | succ nn ih =>
      intro i why e h
      cases hres : results i with
      | ok u =>
          rw [retryLoop, hres] at h
          simp at h
      | error c =>
          rw [retryLoop, hres] at h ⊢
          exact ih (i + 1) c e h

/-- C4 amended: `remove_parts` runs once before the first attempt (not
before every attempt) and again after the final outcome whenever the
outcome is the first attempt's success or the final error — a successful
retry returns early and skips the final cleanup.  `remove_parts` itself
leaves no `<filename>.part*` sibling in the directory. -/
theorem remove_parts_call_pattern (retries : Nat)
    (results : Nat → Except Error Unit) (filename : String)
    (dir : List String) :
    ((requestTrace retries results).2.head? = some ReqAction.removeParts) ∧
    (∀ e, (requestTrace retries results).1 = Except.error e →
      (requestTrace retries results).2.getLast? =
        some ReqAction.removeParts) ∧
    (results 0 = Except.ok () →
      (requestTrace retries results).2 =
        [ReqAction.removeParts, ReqAction.attempt 0,
          ReqAction.removeParts]) ∧
    (∀ s ∈ removePartsModel filename dir,
      isPartSibling filename s = false) := by
  refine ⟨?_, ?_, ?_, ?_⟩
  · cases hres : results 0 with
    | ok u => cases u; simp [requestTrace, hres]
    | error why => simp [requestTrace, hres]
  · intro e he
    cases hres : results 0 with
    | ok u =>
        cases u
        rw [requestTrace, hres] at he
        simp at he
    | error why =>
        rw [requestTrace, hres] at he
        simp only at he
        have hearly := retryLoop_error_not_early results (retries - 1) 1 why e he
        simp only [requestTrace, hres, hearly, Bool.false_eq_true, if_false]
        rw [show ReqAction.removeParts :: ReqAction.attempt 0 ::
            ((retryLoop results 1 (retries - 1) why).2.1 ++
              [ReqAction.removeParts]) =
          (ReqAction.removeParts :: ReqAction.attempt 0 ::
            (retryLoop results 1 (retries - 1) why).2.1) ++
            [ReqAction.removeParts] by simp]
        exact List.getLast?_concat _
  · intro h0
    simp [requestTrace, h0]
  · intro s hs
    simp only [removePartsModel, List.mem_filter] at hs
    simpa using hs.2

/-- Witness for C4 (amended): a run whose attempts all fail ends with a
`remove_parts` step, and `remove_parts` on a directory holding `a.part0`
leaves no part sibling of `a`. -/
theorem remove_parts_call_pattern_witness :
    (requestTrace 2 (fun _ => Except.error Error.TimedOut)).2.getLast? =
        some ReqAction.removeParts ∧
      ∀ s ∈ removePartsModel "a" ["a.part0", "a.txt", "b"],
        isPartSibling "a" s = false :=
  ⟨(remove_parts_call_pattern 2 (fun _ => Except.error Error.TimedOut) "a"
        ["a.part0", "a.txt", "b"]).2.1 Error.TimedOut rfl,
    (remove_parts_call_pattern 2 (fun _ => Except.error Error.TimedOut) "a"
        ["a.part0", "a.txt", "b"]).2.2.2⟩

/-! ## Which mirror each request goes to
(`Fetcher::inner_request`, `src/lib.rs` lines 275-422, and
`Fetcher::get_many`, lines 509-597)

The model records every HTTP request one `inner_request` attempt issues,
tagged with the index into `uris` it is addressed to, as a function of an
environment of oracle outcomes for the awaited operations. -/

/-- One HTTP request issued during an attempt: the probe `head` call, a
`supports_range` HEAD, the single-stream GET, or the GET for part `part`
issued by `get_many`. -/
inductive Req where
  | headReq (uriIdx : Nat) : Req
  | rangeProbe (uriIdx : Nat) : Req
  | getReq (uriIdx : Nat) : Req
  | partGet (part : Nat) (uriIdx : Nat) : Req
deriving DecidableEq, Repr

/-- Outcomes of the operations one `inner_request` attempt awaits.
`partCount` abstracts how many part GETs `get_many` issues (the ranges
come from the external `range::generate`); `multiResult` is the outcome
of the `get_many` pipeline. -/
structure FetchEnv where
  fileExists : Bool
  head1 : Except Error (Option HeadInfo)
  meta : Except Nat FileMeta
  removeOk : Except Nat Unit
  connections : Bool
  head2 : Except Error (Option HeadInfo)
  multiRangeOk : Except Error Bool
  partCount : Nat
  multiResult : Except Error Unit
  singleRangeOk : Except Error Bool
  getOutcome : Except Error Unit
  getOutcome2 : Except Error Unit

/-- Lines 372-378 of `src/lib.rs`: discard `resume` when it exceeds the
known length. -/
def adjustResume (resume length : Option Nat) : Option Nat :=
  match resume, length with
  | some r, some l => if l < r then none else some r
  | r, _ => r

/-- The result of the single-stream tail of `inner_request`
(`src/lib.rs` lines 393-421): a `Status(304)` from `get` counts as
success, a `Status(501)` triggers one plain retry GET whose outcome
decides, any other error propagates. -/
def singleResult (env : FetchEnv) : Except Error Unit :=
  match env.getOutcome with
  | Except.ok _ => Except.ok ()
  | Except.error (Error.Status 304) => Except.ok ()
  | Except.error (Error.Status 501) =>
      match env.getOutcome2 with
      | Except.ok _ => Except.ok ()
      | Except.error e => Except.error e
  | Except.error e => Except.error e

/-- The requests the single-stream tail issues
(`src/lib.rs` lines 380-413), all to `uris[0]`: a `supports_range` HEAD
when a resume offset survives line 378 (issued even when its outcome is an
error, which line 387 swallows), the GET, and the fallback GET on a 501. -/
def singleReqs (env : FetchEnv) (length resume : Option Nat) : List Req :=
  (match adjustResume resume length with
    | some _ => [Req.rangeProbe 0]
    | none => []) ++
  [Req.getReq 0] ++
  (match env.getOutcome with
    | Except.error (Error.Status 501) => [Req.getReq 0]
    | _ => [])

/-- The single-stream tail: result and requests, appended to the requests
already issued. -/
def singleTrace (env : FetchEnv) (length resume : Option Nat)
    (acc : List Req) : Except Error Unit × List Req :=
  (singleResult env, acc ++ singleReqs env length resume)

/-- The part GETs `get_many` issues (`src/lib.rs` lines 538-541): part `i`
goes to `uris[i % uris.len()]`. -/
def partRequests (n count : Nat) : List Req :=
  (List.range count).map (fun p => Req.partGet p (p % n))

/-- One `inner_request` attempt (`src/lib.rs` lines 275-422) as a request
trace over `n = uris.len()` mirrors: the probe `head` on `uris[0]` when
the destination exists, the multi-part block's `head` and `supports_range`
on `uris[0]` when `connections_per_file` is set, the `get_many` part GETs
on success of the range probe, and otherwise the single-stream tail on
`uris[0]`. -/
def innerTrace (env : FetchEnv) (n : Nat) : Except Error Unit × List Req :=
  let probeReqs := if env.fileExists then [Req.headReq 0] else []
  match probeModel env.fileExists env.head1 env.meta env.removeOk with
  | Except.error e => (Except.error e, probeReqs)
  | Except.ok pr =>
    if pr.finished then (Except.ok (), probeReqs)
    else if env.connections then
      let acc1 := probeReqs ++ [Req.headReq 0]
      match env.head2 with
      | Except.error e => (Except.error e, acc1)
      | Except.ok none => singleTrace env pr.length pr.resume acc1
      | Except.ok (some info) =>
          let length1 :=
            match pr.length with
            | some l => some l
            | none => info.contentLength
          match length1 with
          | some _ =>
              let acc2 := acc1 ++ [Req.rangeProbe 0]
              match env.multiRangeOk with
              | Except.error e => (Except.error e, acc2)
              | Except.ok true =>
                  (env.multiResult, acc2 ++ partRequests n env.partCount)
              | Except.ok false => singleTrace env length1 pr.resume acc2
          | none => singleTrace env length1 pr.resume acc1
    else singleTrace env pr.length pr.resume probeReqs

/-- The mirror discipline a request must satisfy: every probe, range probe
and single-stream GET goes to `uris[0]`; part `p` goes to
`uris[p % n]`. -/
def reqOK (n : Nat) : Req → Bool
  | Req.headReq i => i == 0
  | Req.rangeProbe i => i == 0
  | Req.getReq i => i == 0
  | Req.partGet p i => i == p % n

theorem singleReqs_reqOK (env : FetchEnv) (length resume : Option Nat)
    (n : Nat) : ∀ r ∈ singleReqs env length resume, reqOK n r = true := by
  intro r hr
  unfold singleReqs at hr
  rcases List.mem_append.mp hr with h | h
  · rcases List.mem_append.mp h with h1 | h1
    · split at h1
      · simp only [List.mem_singleton] at h1
        subst h1
        rfl
      · simp at h1
    · simp only [List.mem_singleton] at h1
      subst h1
      rfl
  · split at h
    · simp only [List.mem_singleton] at h
      subst h
      rfl
    · simp at h

theorem singleTrace_reqOK (env : FetchEnv) (length resume : Option Nat)
    (acc : List Req) (n : Nat)
    (hacc : ∀ x ∈ acc, reqOK n x = true) :
    ∀ r ∈ (singleTrace env length resume acc).2, reqOK n r = true := by
  intro r hr
  rcases List.mem_append.mp hr with h | h
  · exact hacc r h
  · exact singleReqs_reqOK env length resume n r h

theorem partRequests_reqOK (n count : Nat) :
    ∀ r ∈ partRequests n count, reqOK n r = true := by
  intro r hr
  simp only [partRequests, List.mem_map] at hr
  obtain ⟨p, _, rfl⟩ := hr
  simp [reqOK]

/-- C9: in every attempt, every request outside the multi-part getter —
the probe HEAD, the range-support HEADs, the GET and the 501 fallback
GET — is addressed to `uris[0]`, whatever the outcomes of the awaited
operations; only `get_many` contacts later mirrors, sending part `p` to
`uris[p % n]`. -/
theorem inner_request_mirror_discipline (env : FetchEnv) (n : Nat) :
    ∀ r ∈ (innerTrace env n).2, reqOK n r = true := by
  have hprobe : ∀ x ∈ (if env.fileExists then [Req.headReq 0] else []),
      reqOK n x = true := by
    intro x hx
    split at hx
    · simp only [List.mem_singleton] at hx
      subst hx
      rfl
    · simp at hx
  have hacc1 : ∀ x ∈ (if env.fileExists then [Req.headReq 0] else []) ++
      [Req.headReq 0], reqOK n x = true := by
    intro x hx
    rcases List.mem_append.mp hx with h | h
    · exact hprobe x h
    · simp only [List.mem_singleton] at h
      subst h
      rfl
  have hacc2 : ∀ x ∈ ((if env.fileExists then [Req.headReq 0] else []) ++
      [Req.headReq 0]) ++ [Req.rangeProbe 0], reqOK n x = true := by
    intro x hx
    rcases List.mem_append.mp hx with h | h
    · exact hacc1 x h
    · simp only [List.mem_singleton] at h
      subst h
      rfl
  intro r hr
  unfold innerTrace at hr
  simp only at hr
  split at hr
  · exact hprobe r hr
  · split at hr
    · exact hprobe r hr
    · split at hr
      · split at hr
        · exact hacc1 r hr
        · exact singleTrace_reqOK env _ _ _ n hacc1 r hr
        · split at hr
          · split at hr
            · exact hacc2 r hr
            · rcases List.mem_append.mp hr with h | h
              · exact hacc2 r h
              · exact partRequests_reqOK n env.partCount r h
            · exact singleTrace_reqOK env _ _ _ n hacc2 r hr
          · exact singleTrace_reqOK env _ _ _ n hacc1 r hr
      · exact singleTrace_reqOK env _ _ _ n hprobe r hr

/-- Witness for C9: a concrete environment that takes the multi-part path
over 2 mirrors with 3 parts; part 2's GET goes to mirror `2 % 2 = 0`, and
the second probe HEAD goes to mirror 0. -/
theorem inner_request_mirror_discipline_witness :
    reqOK 2 (Req.partGet 2 0) = true ∧ reqOK 2 (Req.headReq 0) = true :=
  ⟨inner_request_mirror_discipline
      ⟨true, Except.ok (some ⟨some 10, some 5⟩),
        Except.ok ⟨4, Except.ok 5⟩, Except.ok (), true,
        Except.ok (some ⟨some 10, some 5⟩), Except.ok true, 3,
        Except.ok (), Except.ok true, Except.ok (), Except.ok ()⟩ 2
      (Req.partGet 2 0) (by decide),
    inner_request_mirror_discipline
      ⟨true, Except.ok (some ⟨some 10, some 5⟩),
        Except.ok ⟨4, Except.ok 5⟩, Except.ok (), true,
        Except.ok (some ⟨some 10, some 5⟩), Except.ok true, 3,
        Except.ok (), Except.ok true, Except.ok (), Except.ok ()⟩ 2
      (Req.headReq 0) (by decide)⟩

end AsyncFetcher
